import Mathlib

/-!
Shallow embedding of the Game of Life universe implemented in `src/src/lib.rs`
(crate `rust-wasm-workshop`).  Machine integers (`u32`, `u8`, `usize`) are
modelled as `Nat`; the packed byte buffer `Vec<u8>` is a `List Nat` whose
entries are the byte values; the fallible constructor (`assert_eq!` in
`from_cells`) returns an `Option`.
-/

/-- Rust `enum Cell { Dead = 0, Alive = 1 }`. -/
inductive Cell : Type
  | Dead : Cell
  | Alive : Cell
deriving DecidableEq

/-- The numeric value of a cell (`cell as u8` in the source). -/
def Cell.toNat : Cell → Nat
  | Cell.Dead => 0
  | Cell.Alive => 1

/-- Rust `struct Universe { width: u32, height: u32, cells: Vec<u8> }`. -/
structure Universe : Type where
  width : Nat
  height : Nat
  cells : List Nat
deriving DecidableEq

/-- Rust slice iterator `cells.chunks(8)`: consecutive chunks of at most 8
cells, the last one possibly shorter. -/
def chunksOf8 : List Cell → List (List Cell)
  | [] => []
  | c0 :: c1 :: c2 :: c3 :: c4 :: c5 :: c6 :: c7 :: rest =>
      [c0, c1, c2, c3, c4, c5, c6, c7] :: chunksOf8 rest
  | l => [l]

/-- The packing fold from `Universe::from_cells`:
`chunk.iter().rev().fold(0, |byte, &cell| (byte << 1) | (cell as u8))`. -/
def packChunk (chunk : List Cell) : Nat :=
  chunk.reverse.foldl (fun byte cell => (byte <<< 1) ||| cell.toNat) 0

/-- Rust `Universe::from_cells(width, height, cells)`.  The
`assert_eq!((width * height) as usize, cells.len())` is modelled by
returning `none` on a length mismatch. -/
def fromCells (width height : Nat) (cells : List Cell) : Option Universe :=
  if width * height = cells.length then
    some { width := width, height := height, cells := (chunksOf8 cells).map packChunk }
  else
    none

/-- Rust `Universe::get_cell(index)`: tests bit `index % 8` of byte
`index / 8` (`self.cells[byte] & (1 << bit) == 0` selects `Dead`). -/
def Universe.get_cell (u : Universe) (index : Nat) : Cell :=
  if u.cells.getD (index / 8) 0 &&& (1 <<< (index % 8)) = 0 then Cell.Dead else Cell.Alive

/-- Rust `Universe::get_index(row, column) = (row * self.width + column)`. -/
def Universe.get_index (u : Universe) (row column : Nat) : Nat :=
  row * u.width + column

/-- Rust `Universe::get_row_column(index) = (index / self.width, index % self.width)`. -/
def Universe.get_row_column (u : Universe) (index : Nat) : Nat × Nat :=
  (index / u.width, index % u.width)

/-- Rust `Universe::to_cells`: unpacks bytes in 8-cell chunks, then
truncates to `width * height` entries. -/
def Universe.to_cells (u : Universe) : List Cell :=
  (((List.range ((u.width * u.height + 7) / 8)).map
      (fun i => (List.range 8).map (fun j => u.get_cell (i * 8 + j)))).flatten).take
    (u.width * u.height)

/-- The `fmt::Display` implementation (and hence `Universe::render`):
for each row, each cell prints as the glyph followed by one space, and a
newline ends each row. -/
def Universe.render (u : Universe) : String :=
  String.join ((List.range u.height).map (fun row =>
    String.join ((List.range u.width).map (fun col =>
      (match u.get_cell (u.get_index row col) with
        | Cell.Alive => "◼"
        | Cell.Dead => "◻") ++ " ")) ++ "\n"))

/-- The body of the `delta_row` loop in `Universe::live_neighbor_count`:
folds the `delta_col` loop over `[self.width - 1, 0, 1]`, skipping the
`(0, 0)` offset and adding each neighbor value otherwise. -/
def Universe.neighborRowStep (u : Universe) (row column count dr : Nat) : Nat :=
  [u.width - 1, 0, 1].foldl (fun count dc =>
    if dr = 0 ∧ dc = 0 then count
    else
      count + (u.get_cell (u.get_index ((row + dr) % u.height) ((column + dc) % u.width))).toNat)
    count

/-- Rust `Universe::live_neighbor_count(row, column)`: the `delta_row`
loop over `[self.height - 1, 0, 1]` starting from `count = 0`. -/
def Universe.live_neighbor_count (u : Universe) (row column : Nat) : Nat :=
  [u.height - 1, 0, 1].foldl (u.neighborRowStep row column) 0

/-- The per-cell transition evaluated inside `Universe::tick`:
`match (self.get_cell(index), n) { (Alive, 2) | (_, 3) => Alive, _ => Dead }`
with `n` the live-neighbor count of `get_row_column(index)`. -/
def Universe.tickCell (u : Universe) (index : Nat) : Cell :=
  let rc := u.get_row_column index
  let n := u.live_neighbor_count rc.1 rc.2
  match u.get_cell index, n with
  | Cell.Alive, 2 => Cell.Alive
  | _, 3 => Cell.Alive
  | _, _ => Cell.Dead

/-- Rust `Universe::tick`: rebuilds the entire packed buffer from the
pre-tick state, one byte per loop iteration
(`(0..8).fold(0, |acc, j| acc | ((cell as u8) << j))`). -/
def Universe.tick (u : Universe) : Universe :=
  { u with cells := (List.range ((u.width * u.height + 7) / 8)).map (fun i =>
      (List.range 8).foldl (fun acc j => acc ||| ((u.tickCell (i * 8 + j)).toNat <<< j)) 0) }

/-- The neighbor-offset table as the specification words it: the 3 by 3
offsets with `deltaRow` ranging over `{height-1, 0, 1}` and `deltaCol` over
`{width-1, 0, 1}`. -/
def Universe.neighborOffsets (u : Universe) : List (Nat × Nat) :=
  [(u.height - 1, u.width - 1), (u.height - 1, 0), (u.height - 1, 1),
   (0, u.width - 1), (0, 0), (0, 1),
   (1, u.width - 1), (1, 0), (1, 1)]

/-- Specification-side reading of `liveNeighborCount`: the sum of the
Alive (1) / Dead (0) values of the cells at the wrapped neighbor
positions, the literal offset pair `(0, 0)` excluded. -/
def Universe.neighborSumSpec (u : Universe) (row col : Nat) : Nat :=
  (((u.neighborOffsets).filter (fun p => !(p.1 == 0 && p.2 == 0))).map
    (fun p =>
      (u.get_cell (u.get_index ((row + p.1) % u.height) ((col + p.2) % u.width))).toNat)).sum

example : packChunk [Cell.Alive, Cell.Dead, Cell.Alive] = 5 := by decide

example : fromCells 2 2 [Cell.Alive, Cell.Dead, Cell.Dead, Cell.Alive] =
    some (Universe.mk 2 2 [9]) := by decide

/-! Basic facts about cells and the packed representation. -/

lemma Cell.toNat_le_one (c : Cell) : c.toNat ≤ 1 := by
  cases c <;> simp [Cell.toNat]

lemma chunksOf8_unfold (l : List Cell) (h : l ≠ []) :
    chunksOf8 l = l.take 8 :: chunksOf8 (l.drop 8) := by
  rcases l with _ | ⟨c0, _ | ⟨c1, _ | ⟨c2, _ | ⟨c3, _ | ⟨c4, _ | ⟨c5, _ | ⟨c6, _ | ⟨c7, rest⟩⟩⟩⟩⟩⟩⟩⟩
  · exact absurd rfl h
  all_goals rfl

lemma chunksOf8_length_aux :
    ∀ (n : Nat) (l : List Cell), l.length ≤ n → (chunksOf8 l).length = (l.length + 7) / 8 := by
  intro n
  induction n with
  | zero =>
    intro l hl
    have : l = [] := List.length_eq_zero.mp (Nat.le_zero.mp hl)
    subst this
    rfl
  | succ n ih =>
    intro l hl
    cases l with
    | nil => rfl
    | cons c t =>
      rw [chunksOf8_unfold _ (by simp)]
      simp only [List.length_cons] at hl
      have hd : ((c :: t).drop 8).length ≤ n := by
        simp only [List.length_drop, List.length_cons]
        omega
      have h2 := ih _ hd
      simp only [List.length_cons, List.length_drop] at h2 ⊢
      omega

lemma chunksOf8_length (l : List Cell) : (chunksOf8 l).length = (l.length + 7) / 8 :=
  chunksOf8_length_aux l.length l le_rfl

lemma chunksOf8_getD_aux :
    ∀ (n : Nat) (l : List Cell) (b : Nat), l.length ≤ n →
      (chunksOf8 l).getD b [] = (l.drop (8 * b)).take 8 := by
  intro n
  induction n with
  | zero =>
    intro l b hl
    have : l = [] := List.length_eq_zero.mp (Nat.le_zero.mp hl)
    subst this
    simp [chunksOf8]
  | succ n ih =>
    intro l b hl
    cases l with
    | nil => simp [chunksOf8]
    | cons c t =>
      rw [chunksOf8_unfold _ (by simp)]
      cases b with
      | zero => simp
      | succ b =>
        simp only [List.length_cons] at hl
        have hd : ((c :: t).drop 8).length ≤ n := by
          simp only [List.length_drop, List.length_cons]
          omega
        rw [List.getD_cons_succ, ih _ b hd, List.drop_drop]
        congr 2
        omega

lemma chunksOf8_getD (l : List Cell) (b : Nat) :
    (chunksOf8 l).getD b [] = (l.drop (8 * b)).take 8 :=
  chunksOf8_getD_aux l.length l b le_rfl

lemma packChunk_eq_foldr (chunk : List Cell) :
    packChunk chunk = chunk.foldr (fun cell byte => (byte <<< 1) ||| cell.toNat) 0 := by
  unfold packChunk
  rw [List.foldl_reverse]

lemma packChunk_testBit (chunk : List Cell) (j : Nat) :
    (packChunk chunk).testBit j = decide (chunk.getD j Cell.Dead = Cell.Alive) := by
  rw [packChunk_eq_foldr]
  induction chunk generalizing j with
  | nil => simp [List.getD]
  | cons c cs ih =>
    cases j with
    | zero =>
      rw [List.foldr_cons, Nat.testBit_lor, Nat.testBit_shiftLeft]
      cases c <;> simp [Cell.toNat]
    | succ j =>
      rw [List.foldr_cons, Nat.testBit_lor, Nat.testBit_shiftLeft]
      have hc : (Cell.toNat c).testBit (j + 1) = false := by
        cases c <;> simp [Cell.toNat, Nat.testBit_succ]
      rw [hc, List.getD_cons_succ, ← ih j]
      simp

lemma get_cell_eq (u : Universe) (index : Nat) :
    u.get_cell index =
      if (u.cells.getD (index / 8) 0).testBit (index % 8) then Cell.Alive else Cell.Dead := by
  unfold Universe.get_cell
  have h1 : (1 : Nat) <<< (index % 8) = 2 ^ (index % 8) := by
    rw [Nat.shiftLeft_eq, one_mul]
  rw [h1, Nat.and_two_pow]
  cases hb : (u.cells.getD (index / 8) 0).testBit (index % 8) <;>
    simp [hb, (Nat.two_pow_pos (index % 8)).ne']

/-! Characterization of construction and cell lookup. -/

lemma fromCells_some (w h : Nat) (seq : List Cell) (u : Universe)
    (hu : fromCells w h seq = some u) :
    w * h = seq.length ∧ u = Universe.mk w h ((chunksOf8 seq).map packChunk) := by
  unfold fromCells at hu
  split at hu
  · exact ⟨by assumption, (Option.some.inj hu).symm⟩
  · exact absurd hu (by simp)

lemma fromCells_of_length (w h : Nat) (seq : List Cell) (hlen : w * h = seq.length) :
    fromCells w h seq = some (Universe.mk w h ((chunksOf8 seq).map packChunk)) := by
  simp [fromCells, hlen]

lemma getD_map_range_nat (f : Nat → Nat) (n k : Nat) (hk : k < n) :
    ((List.range n).map f).getD k 0 = f k := by
  rw [List.getD_eq_getElem?_getD, List.getElem?_eq_getElem (by simpa using hk)]
  simp

lemma fromCells_get_cell (w h : Nat) (seq : List Cell) (u : Universe)
    (hu : fromCells w h seq = some u) (i : Nat) (hi : i < w * h) :
    u.get_cell i = seq.getD i Cell.Dead := by
  obtain ⟨hlen, rfl⟩ := fromCells_some w h seq u hu
  rw [get_cell_eq]
  have hiseq : i < seq.length := hlen ▸ hi
  have hlenchunks : (chunksOf8 seq).length = (seq.length + 7) / 8 := chunksOf8_length seq
  have hbyte : i / 8 < (chunksOf8 seq).length := by
    rw [hlenchunks]
    omega
  have hmap : ((chunksOf8 seq).map packChunk).getD (i / 8) 0 =
      packChunk ((chunksOf8 seq).getD (i / 8) []) := by
    rw [List.getD_eq_getElem?_getD, List.getElem?_eq_getElem (by simpa using hbyte)]
    rw [List.getD_eq_getElem?_getD, List.getElem?_eq_getElem hbyte]
    simp
  show (if (((chunksOf8 seq).map packChunk).getD (i / 8) 0).testBit (i % 8) then Cell.Alive
    else Cell.Dead) = seq.getD i Cell.Dead
  rw [hmap, chunksOf8_getD, packChunk_testBit]
  have hchunk : ((seq.drop (8 * (i / 8))).take 8).getD (i % 8) Cell.Dead =
      seq.getD i Cell.Dead := by
    rw [List.getD_eq_getElem?_getD, List.getElem?_take_of_lt (Nat.mod_lt i (by omega)),
      List.getElem?_drop, List.getD_eq_getElem?_getD,
      (show 8 * (i / 8) + i % 8 = i by omega)]
  rw [hchunk]
  cases seq.getD i Cell.Dead <;> simp

/-! Extracting a single bit from the byte built by the fold in `tick`. -/

lemma toNat_shiftLeft_testBit (c : Cell) (j b : Nat) :
    ((c.toNat <<< j).testBit b) = (decide (b = j) && decide (c = Cell.Alive)) := by
  cases c
  · simp [Cell.toNat]
  · rw [show Cell.Alive.toNat = 1 from rfl, Nat.shiftLeft_eq, one_mul, Nat.testBit_two_pow]
    simp [eq_comm]

lemma pack_testBit (f : Nat → Cell) (b : Nat) (hb : b < 8) :
    ((List.range 8).foldl (fun acc j => acc ||| ((f j).toNat <<< j)) 0).testBit b =
      decide (f b = Cell.Alive) := by
  have hr : List.range 8 = [0, 1, 2, 3, 4, 5, 6, 7] := by decide
  rw [hr]
  simp only [List.foldl_cons, List.foldl_nil, Nat.testBit_lor, toNat_shiftLeft_testBit,
    Nat.zero_testBit]
  interval_cases b <;> simp

/-! The state after one `tick`, cell by cell. -/

lemma tick_width (u : Universe) : u.tick.width = u.width := rfl

lemma tick_height (u : Universe) : u.tick.height = u.height := rfl

lemma tick_cells_length (u : Universe) :
    u.tick.cells.length = (u.width * u.height + 7) / 8 := by
  simp [Universe.tick]

lemma tick_get_cell (u : Universe) (i : Nat) (hi : i < u.width * u.height) :
    u.tick.get_cell i = u.tickCell i := by
  rw [get_cell_eq]
  have hcells : u.tick.cells = (List.range ((u.width * u.height + 7) / 8)).map (fun k =>
      (List.range 8).foldl (fun acc j => acc ||| ((u.tickCell (k * 8 + j)).toNat <<< j)) 0) := rfl
  have hbyte : i / 8 < (u.width * u.height + 7) / 8 := by omega
  rw [hcells, getD_map_range_nat _ _ _ hbyte,
    pack_testBit (fun j => u.tickCell (i / 8 * 8 + j)) (i % 8) (Nat.mod_lt i (by omega)),
    (show i / 8 * 8 + i % 8 = i by omega)]
  cases u.tickCell i <;> simp

lemma tickCell_rule (u : Universe) (i : Nat) :
    u.tickCell i =
      if (u.get_cell i = Cell.Alive ∧ u.live_neighbor_count (i / u.width) (i % u.width) = 2)
          ∨ u.live_neighbor_count (i / u.width) (i % u.width) = 3
      then Cell.Alive else Cell.Dead := by
  unfold Universe.tickCell Universe.get_row_column
  cases hc : u.get_cell i <;>
    rcases hn : u.live_neighbor_count (i / u.width) (i % u.width) with _ | _ | _ | _ | m <;>
    simp [hc, hn]

/-! Bounds on the neighbor count and on logical indices. -/

lemma neighborRowStep_le (u : Universe) (row column count dr : Nat) :
    u.neighborRowStep row column count dr ≤ count + 3 := by
  unfold Universe.neighborRowStep
  simp only [List.foldl_cons, List.foldl_nil]
  have h1 := Cell.toNat_le_one (u.get_cell (u.get_index ((row + dr) % u.height)
    ((column + (u.width - 1)) % u.width)))
  have h2 := Cell.toNat_le_one (u.get_cell (u.get_index ((row + dr) % u.height)
    ((column + 0) % u.width)))
  have h3 := Cell.toNat_le_one (u.get_cell (u.get_index ((row + dr) % u.height)
    ((column + 1) % u.width)))
  split_ifs <;> omega

lemma neighborRowStep_zero_le (u : Universe) (row column count : Nat) :
    u.neighborRowStep row column count 0 ≤ count + 2 := by
  unfold Universe.neighborRowStep
  simp only [List.foldl_cons, List.foldl_nil]
  simp only [show (True ∧ (1 : Nat) = 0) = False by simp, show (True ∧ True) = True by simp,
    if_false, if_true]
  have h1 := Cell.toNat_le_one (u.get_cell (u.get_index ((row + 0) % u.height)
    ((column + (u.width - 1)) % u.width)))
  have h3 := Cell.toNat_le_one (u.get_cell (u.get_index ((row + 0) % u.height)
    ((column + 1) % u.width)))
  split_ifs <;> omega

lemma live_neighbor_count_le_eight (u : Universe) (row column : Nat) :
    u.live_neighbor_count row column ≤ 8 := by
  unfold Universe.live_neighbor_count
  simp only [List.foldl_cons, List.foldl_nil]
  have h1 := neighborRowStep_le u row column 0 (u.height - 1)
  have h2 := neighborRowStep_zero_le u row column (u.neighborRowStep row column 0 (u.height - 1))
  have h3 := neighborRowStep_le u row column
    (u.neighborRowStep row column (u.neighborRowStep row column 0 (u.height - 1)) 0) 1
  omega

lemma get_index_lt (u : Universe) (row col : Nat) (hr : row < u.height) (hc : col < u.width) :
    u.get_index row col < u.width * u.height := by
  unfold Universe.get_index
  calc row * u.width + col < row * u.width + u.width := by omega
    _ = (row + 1) * u.width := by ring
    _ ≤ u.height * u.width := Nat.mul_le_mul_right _ hr
    _ = u.width * u.height := Nat.mul_comm _ _

/-! Unfolding `to_cells`. -/

lemma flatten_map_range (f : Nat → Cell) :
    ∀ n, ((List.range n).map (fun i => (List.range 8).map (fun j => f (i * 8 + j)))).flatten =
      (List.range (n * 8)).map f := by
  intro n
  induction n with
  | zero => simp
  | succ n ih =>
    rw [(show List.range (n + 1) = List.range n ++ [n] by
        rw [← Nat.succ_eq_add_one, List.range_succ]),
      List.map_append, List.flatten_append, ih,
      (show (n + 1) * 8 = n * 8 + 8 by ring), List.range_add, List.map_append]
    simp [List.map_map, Function.comp_def]

lemma to_cells_eq (u : Universe) :
    u.to_cells =
      ((List.range (((u.width * u.height + 7) / 8) * 8)).map u.get_cell).take
        (u.width * u.height) := by
  unfold Universe.to_cells
  rw [flatten_map_range]

lemma to_cells_length (u : Universe) : u.to_cells.length = u.width * u.height := by
  rw [to_cells_eq]
  simp only [List.length_take, List.length_map, List.length_range]
  omega

/-! The loop of `live_neighbor_count` computes the specification-side sum. -/

lemma live_neighbor_count_eq_spec (u : Universe) (row col : Nat) :
    u.live_neighbor_count row col = u.neighborSumSpec row col := by
  unfold Universe.live_neighbor_count Universe.neighborRowStep Universe.neighborSumSpec
    Universe.neighborOffsets
  by_cases hh : u.height - 1 = 0 <;> by_cases hw : u.width - 1 = 0 <;>
    simp [hh, hw, List.filter_cons, List.filter_nil, beq_iff_eq, Bool.and_eq_true,
      Bool.not_eq_true, decide_eq_true_eq, List.sum_cons, List.sum_nil] <;> omega

lemma to_cells_getD (u : Universe) (i : Nat) (hi : i < u.width * u.height) :
    u.to_cells.getD i Cell.Dead = u.get_cell i := by
  have hlt : i < ((u.width * u.height + 7) / 8) * 8 := by omega
  rw [to_cells_eq, List.getD_eq_getElem?_getD, List.getElem?_take_of_lt hi,
    List.getElem?_map, List.getElem?_range hlt]
  rfl

/-! Observable behavior depends only on the logical cells (congruence lemmas). -/

lemma get_index_congr (u1 u2 : Universe) (hw : u1.width = u2.width) (a b : Nat) :
    u1.get_index a b = u2.get_index a b := by
  unfold Universe.get_index
  rw [hw]

lemma neighborRowStep_congr (u1 u2 : Universe) (hw : u1.width = u2.width)
    (hh : u1.height = u2.height)
    (hc : ∀ i, i < u1.width * u1.height → u1.get_cell i = u2.get_cell i)
    (row col : Nat) (hr : row < u1.height) (hcol : col < u1.width) (count dr : Nat) :
    u1.neighborRowStep row col count dr = u2.neighborRowStep row col count dr := by
  have hh0 : 0 < u1.height := lt_of_le_of_lt (Nat.zero_le _) hr
  have hw0 : 0 < u1.width := lt_of_le_of_lt (Nat.zero_le _) hcol
  unfold Universe.neighborRowStep
  rw [← hw, ← hh]
  apply List.foldl_ext
  intro acc dc hdc
  by_cases h0 : dr = 0 ∧ dc = 0
  · simp [h0]
  · rw [if_neg h0, if_neg h0, ← get_index_congr u1 u2 hw,
      hc _ (get_index_lt u1 _ _ (Nat.mod_lt _ hh0) (Nat.mod_lt _ hw0))]

lemma live_neighbor_count_congr (u1 u2 : Universe) (hw : u1.width = u2.width)
    (hh : u1.height = u2.height)
    (hc : ∀ i, i < u1.width * u1.height → u1.get_cell i = u2.get_cell i)
    (row col : Nat) (hr : row < u1.height) (hcol : col < u1.width) :
    u1.live_neighbor_count row col = u2.live_neighbor_count row col := by
  unfold Universe.live_neighbor_count
  rw [← hh]
  apply List.foldl_ext
  intro acc dr hdr
  exact neighborRowStep_congr u1 u2 hw hh hc row col hr hcol acc dr

lemma tickCell_congr (u1 u2 : Universe) (hw : u1.width = u2.width)
    (hh : u1.height = u2.height)
    (hc : ∀ i, i < u1.width * u1.height → u1.get_cell i = u2.get_cell i)
    (i : Nat) (hi : i < u1.width * u1.height) :
    u1.tickCell i = u2.tickCell i := by
  have hw0 : 0 < u1.width := by
    rcases Nat.eq_zero_or_pos u1.width with h | h
    · rw [h] at hi; simp at hi
    · exact h
  have hr : i / u1.width < u1.height := (Nat.div_lt_iff_lt_mul hw0).mpr (by
    rw [Nat.mul_comm]; exact hi)
  have hcol : i % u1.width < u1.width := Nat.mod_lt _ hw0
  simp only [Universe.tickCell, Universe.get_row_column]
  rw [← hw, hc i hi, live_neighbor_count_congr u1 u2 hw hh hc _ _ hr hcol]

lemma tick_get_cell_congr (u1 u2 : Universe) (hw : u1.width = u2.width)
    (hh : u1.height = u2.height)
    (hc : ∀ i, i < u1.width * u1.height → u1.get_cell i = u2.get_cell i)
    (i : Nat) (hi : i < u1.width * u1.height) :
    u1.tick.get_cell i = u2.tick.get_cell i := by
  rw [tick_get_cell u1 i hi, tick_get_cell u2 i (by rw [← hw, ← hh]; exact hi)]
  exact tickCell_congr u1 u2 hw hh hc i hi

lemma iterate_tick_width (u : Universe) (k : Nat) : (Universe.tick^[k] u).width = u.width := by
  induction k with
  | zero => rfl
  | succ k ih => rw [Function.iterate_succ_apply', tick_width, ih]

lemma iterate_tick_height (u : Universe) (k : Nat) : (Universe.tick^[k] u).height = u.height := by
  induction k with
  | zero => rfl
  | succ k ih => rw [Function.iterate_succ_apply', tick_height, ih]

lemma iterate_tick_congr (u1 u2 : Universe) (hw : u1.width = u2.width)
    (hh : u1.height = u2.height)
    (hc : ∀ i, i < u1.width * u1.height → u1.get_cell i = u2.get_cell i) :
    ∀ k, ∀ i, i < u1.width * u1.height →
      (Universe.tick^[k] u1).get_cell i = (Universe.tick^[k] u2).get_cell i := by
  intro k
  induction k with
  | zero => exact hc
  | succ k ih =>
    intro i hi
    rw [Function.iterate_succ_apply', Function.iterate_succ_apply']
    apply tick_get_cell_congr (Universe.tick^[k] u1) (Universe.tick^[k] u2)
    · rw [iterate_tick_width, iterate_tick_width, hw]
    · rw [iterate_tick_height, iterate_tick_height, hh]
    · rw [iterate_tick_width, iterate_tick_height]
      exact ih
    · rw [iterate_tick_width, iterate_tick_height]
      exact hi

lemma to_cells_congr (u1 u2 : Universe) (hw : u1.width = u2.width)
    (hh : u1.height = u2.height)
    (hc : ∀ i, i < u1.width * u1.height → u1.get_cell i = u2.get_cell i) :
    u1.to_cells = u2.to_cells := by
  apply List.ext_getElem?
  intro n
  by_cases hn : n < u1.width * u1.height
  · have h1 : n < u1.to_cells.length := by rw [to_cells_length]; exact hn
    have h2 : n < u2.to_cells.length := by rw [to_cells_length, ← hw, ← hh]; exact hn
    rw [List.getElem?_eq_getElem h1, List.getElem?_eq_getElem h2]
    have e1 := to_cells_getD u1 n hn
    have e2 := to_cells_getD u2 n (by rw [← hw, ← hh]; exact hn)
    rw [List.getD_eq_getElem?_getD, List.getElem?_eq_getElem h1] at e1
    rw [List.getD_eq_getElem?_getD, List.getElem?_eq_getElem h2] at e2
    simp only [Option.getD_some] at e1 e2
    rw [e1, e2, hc n hn]
  · rw [List.getElem?_eq_none (by rw [to_cells_length]; omega),
      List.getElem?_eq_none (by rw [to_cells_length, ← hw, ← hh]; omega)]

lemma render_congr (u1 u2 : Universe) (hw : u1.width = u2.width)
    (hh : u1.height = u2.height)
    (hc : ∀ i, i < u1.width * u1.height → u1.get_cell i = u2.get_cell i) :
    u1.render = u2.render := by
  unfold Universe.render
  rw [← hw, ← hh]
  congr 1
  apply List.map_congr_left
  intro row hrow
  have hr : row < u1.height := by simpa using hrow
  congr 1
  congr 1
  apply List.map_congr_left
  intro col hcol2
  have hcol : col < u1.width := by simpa using hcol2
  rw [← get_index_congr u1 u2 hw, hc _ (get_index_lt u1 _ _ hr hcol)]


lemma to_cells_getElem_eq (u : Universe) (n : Nat) (hn : n < u.width * u.height)
    (h1 : n < u.to_cells.length) :
    u.to_cells[n] = u.get_cell n := by
  have e1 := to_cells_getD u n hn
  rw [List.getD_eq_getElem?_getD, List.getElem?_eq_getElem h1] at e1
  simpa using e1

lemma live_neighbor_count_zero (u : Universe) (hw0 : 0 < u.width) (hh0 : 0 < u.height)
    (hdead : ∀ i, i < u.width * u.height → u.get_cell i = Cell.Dead)
    (row col : Nat) : u.live_neighbor_count row col = 0 := by
  unfold Universe.live_neighbor_count Universe.neighborRowStep
  simp only [List.foldl_cons, List.foldl_nil]
  have hterm : ∀ r c : Nat,
      (u.get_cell (u.get_index (r % u.height) (c % u.width))).toNat = 0 := by
    intro r c
    rw [hdead _ (get_index_lt u _ _ (Nat.mod_lt _ hh0) (Nat.mod_lt _ hw0))]
    rfl
  simp only [hterm, Nat.add_zero, ite_self]

/-! The claims. -/

/-- C1: for every constructed grid with positive dimensions, `tick` makes the
post-tick cell at each logical index `i` Alive exactly when, in the frozen
pre-tick state, the cell is Alive with live-neighbor count 2, or the count
is 3, and Dead otherwise. -/
theorem tick_next_state (u : Universe) (hw : 0 < u.width) (hh : 0 < u.height)
    (i : Nat) (hi : i < u.width * u.height) :
    u.tick.get_cell i =
      if (u.get_cell i = Cell.Alive ∧ u.live_neighbor_count (i / u.width) (i % u.width) = 2)
          ∨ u.live_neighbor_count (i / u.width) (i % u.width) = 3
      then Cell.Alive else Cell.Dead := by
  rw [tick_get_cell u i hi, tickCell_rule]

/-- Witness for C1 at the 1 by 1 universe with its single cell Alive. -/
theorem tick_next_state_witness :
    (Universe.mk 1 1 [1]).tick.get_cell 0 =
      if ((Universe.mk 1 1 [1]).get_cell 0 = Cell.Alive ∧
            (Universe.mk 1 1 [1]).live_neighbor_count (0 / (Universe.mk 1 1 [1]).width)
              (0 % (Universe.mk 1 1 [1]).width) = 2)
          ∨ (Universe.mk 1 1 [1]).live_neighbor_count (0 / (Universe.mk 1 1 [1]).width)
              (0 % (Universe.mk 1 1 [1]).width) = 3
      then Cell.Alive else Cell.Dead :=
  tick_next_state (Universe.mk 1 1 [1]) (by decide) (by decide) 0 (by decide)

/-- C2: packing a sequence of exactly `width * height` cells and unpacking it
returns the sequence unchanged. -/
theorem fromCells_toCells_roundtrip (w h : Nat) (seq : List Cell)
    (hlen : seq.length = w * h) (u : Universe) (hu : fromCells w h seq = some u) :
    u.to_cells = seq := by
  apply List.ext_getElem?
  intro n
  obtain ⟨hwh, hue⟩ := fromCells_some w h seq u hu
  have hdim : u.width * u.height = w * h := by rw [hue]
  by_cases hn : n < w * h
  · have hn2 : n < u.width * u.height := by rw [hdim]; exact hn
    have h1 : n < u.to_cells.length := by rw [to_cells_length]; exact hn2
    have h2 : n < seq.length := by omega
    rw [List.getElem?_eq_getElem h1, List.getElem?_eq_getElem h2,
      to_cells_getElem_eq u n hn2 h1, fromCells_get_cell w h seq u hu n hn]
    rw [List.getD_eq_getElem?_getD, List.getElem?_eq_getElem h2]
    rfl
  · rw [List.getElem?_eq_none (by rw [to_cells_length, hdim]; omega),
      List.getElem?_eq_none (by omega)]

/-- Witness for C2 on a concrete 2 by 2 grid. -/
theorem fromCells_toCells_roundtrip_witness :
    (Universe.mk 2 2 [9]).to_cells = [Cell.Alive, Cell.Dead, Cell.Dead, Cell.Alive] :=
  fromCells_toCells_roundtrip 2 2 [Cell.Alive, Cell.Dead, Cell.Dead, Cell.Alive]
    (by decide) (Universe.mk 2 2 [9]) (by decide)

/-- C3: the neighbor count equals the sum over the 3 by 3 toroidal offsets
with the literal pair (0, 0) excluded, and always lies in [0, 8]. -/
theorem live_neighbor_count_correct (u : Universe) (row col : Nat) (hw : 0 < u.width)
    (hh : 0 < u.height) (hr : row < u.height) (hc : col < u.width) :
    u.live_neighbor_count row col = u.neighborSumSpec row col ∧
      u.live_neighbor_count row col ≤ 8 :=
  ⟨live_neighbor_count_eq_spec u row col, live_neighbor_count_le_eight u row col⟩

/-- Witness for C3 on a concrete 2 by 2 grid. -/
theorem live_neighbor_count_correct_witness :
    (Universe.mk 2 2 [15]).live_neighbor_count 0 1 =
        (Universe.mk 2 2 [15]).neighborSumSpec 0 1 ∧
      (Universe.mk 2 2 [15]).live_neighbor_count 0 1 ≤ 8 :=
  live_neighbor_count_correct (Universe.mk 2 2 [15]) 0 1 (by decide) (by decide)
    (by decide) (by decide)

/-- C4: after `fromCells`, logical cell `i` is stored at bit `i % 8` of byte
`i / 8` with bit 1 meaning Alive, and `get_cell i` returns the original
sequence entry. -/
theorem fromCells_bit_layout (w h : Nat) (seq : List Cell) (u : Universe)
    (hu : fromCells w h seq = some u) (i : Nat) (hi : i < w * h) :
    ((u.cells.getD (i / 8) 0).testBit (i % 8) = true ↔ seq.getD i Cell.Dead = Cell.Alive) ∧
      u.get_cell i = seq.getD i Cell.Dead := by
  have hg := fromCells_get_cell w h seq u hu i hi
  refine ⟨?_, hg⟩
  rw [get_cell_eq] at hg
  cases hb : (u.cells.getD (i / 8) 0).testBit (i % 8)
  · rw [hb] at hg
    simp only [Bool.false_eq_true, if_false] at hg
    rw [← hg]
    decide
  · rw [hb] at hg
    simp only [if_true] at hg
    rw [← hg]
    decide

/-- Witness for C4 on a concrete 2 by 2 grid. -/
theorem fromCells_bit_layout_witness :
    (((Universe.mk 2 2 [9]).cells.getD (3 / 8) 0).testBit (3 % 8) = true ↔
        ([Cell.Alive, Cell.Dead, Cell.Dead, Cell.Alive].getD 3 Cell.Dead = Cell.Alive)) ∧
      (Universe.mk 2 2 [9]).get_cell 3 =
        [Cell.Alive, Cell.Dead, Cell.Dead, Cell.Alive].getD 3 Cell.Dead :=
  fromCells_bit_layout 2 2 [Cell.Alive, Cell.Dead, Cell.Dead, Cell.Alive]
    (Universe.mk 2 2 [9]) (by decide) 3 (by decide)

/-- C5: `fromCells` fails exactly when the supplied cell count differs from
`width * height`; when it matches, construction succeeds. -/
theorem fromCells_failure_iff (w h : Nat) (cells : List Cell) :
    fromCells w h cells = none ↔ cells.length ≠ w * h := by
  unfold fromCells
  split
  · rename_i hcond
    simp
    omega
  · rename_i hcond
    simp
    omega

/-- C6: the 4 by 4 fixture renders to the exact literal string, glyph plus
trailing space per cell and a newline per row. -/
theorem render_fixture_exact (u : Universe)
    (hu : fromCells 4 4
      [Cell.Dead, Cell.Dead, Cell.Dead, Cell.Dead,
       Cell.Dead, Cell.Dead, Cell.Dead, Cell.Alive,
       Cell.Dead, Cell.Dead, Cell.Alive, Cell.Alive,
       Cell.Dead, Cell.Alive, Cell.Alive, Cell.Alive] = some u) :
    u.render = "◻ ◻ ◻ ◻ \n◻ ◻ ◻ ◼ \n◻ ◻ ◼ ◼ \n◻ ◼ ◼ ◼ \n" := by
  have h2 : fromCells 4 4
      [Cell.Dead, Cell.Dead, Cell.Dead, Cell.Dead,
       Cell.Dead, Cell.Dead, Cell.Dead, Cell.Alive,
       Cell.Dead, Cell.Dead, Cell.Alive, Cell.Alive,
       Cell.Dead, Cell.Alive, Cell.Alive, Cell.Alive] =
      some (Universe.mk 4 4 [128, 236]) := by decide
  have hue : u = Universe.mk 4 4 [128, 236] := Option.some.inj (hu.symm.trans h2)
  subst hue
  decide

/-- Witness for C6: the packed fixture universe renders to the literal. -/
theorem render_fixture_exact_witness :
    (Universe.mk 4 4 [128, 236]).render =
      "◻ ◻ ◻ ◻ \n◻ ◻ ◻ ◼ \n◻ ◻ ◼ ◼ \n◻ ◼ ◼ ◼ \n" :=
  render_fixture_exact (Universe.mk 4 4 [128, 236]) (by decide)

/-- C7: a grid whose logical cells are all Dead still has all logical cells
Dead after one tick, for any dimensions. -/
theorem all_dead_stays_dead (u : Universe)
    (hdead : ∀ i, i < u.width * u.height → u.get_cell i = Cell.Dead) :
    ∀ i, i < u.width * u.height → u.tick.get_cell i = Cell.Dead := by
  intro i hi
  have hw0 : 0 < u.width := by
    rcases Nat.eq_zero_or_pos u.width with h | h
    · rw [h] at hi; simp at hi
    · exact h
  have hh0 : 0 < u.height := by
    rcases Nat.eq_zero_or_pos u.height with h | h
    · rw [h] at hi; simp at hi
    · exact h
  rw [tick_get_cell u i hi, tickCell_rule]
  rw [live_neighbor_count_zero u hw0 hh0 hdead]
  simp [hdead i hi]

/-- Witness for C7 on an all-dead 2 by 2 grid. -/
theorem all_dead_stays_dead_witness :
    (Universe.mk 2 2 [0]).tick.get_cell 0 = Cell.Dead :=
  all_dead_stays_dead (Universe.mk 2 2 [0]) (by decide) 0 (by decide)

/-- C8: a constructed grid's packed buffer has length `ceil(width*height/8)`,
and every number of ticks preserves the width, the height and that buffer
length. -/
theorem buffer_length_invariant (w h : Nat) (seq : List Cell) (u : Universe)
    (hu : fromCells w h seq = some u) :
    u.cells.length = (w * h + 7) / 8 ∧ u.width = w ∧ u.height = h ∧
      ∀ k : Nat, (Universe.tick^[k] u).width = w ∧ (Universe.tick^[k] u).height = h ∧
        (Universe.tick^[k] u).cells.length = (w * h + 7) / 8 := by
  obtain ⟨hlen, rfl⟩ := fromCells_some w h seq u hu
  refine ⟨?_, rfl, rfl, ?_⟩
  · show ((chunksOf8 seq).map packChunk).length = (w * h + 7) / 8
    rw [List.length_map, chunksOf8_length, ← hlen]
  · intro k
    refine ⟨by rw [iterate_tick_width], by rw [iterate_tick_height], ?_⟩
    cases k with
    | zero =>
      show ((chunksOf8 seq).map packChunk).length = (w * h + 7) / 8
      rw [List.length_map, chunksOf8_length, ← hlen]
    | succ k =>
      rw [Function.iterate_succ_apply', tick_cells_length, iterate_tick_width,
        iterate_tick_height]

/-- Witness for C8 after two ticks of a 1 by 1 grid. -/
theorem buffer_length_invariant_witness :
    (Universe.tick^[2] (Universe.mk 1 1 [1])).cells.length = (1 * 1 + 7) / 8 :=
  ((buffer_length_invariant 1 1 [Cell.Alive] (Universe.mk 1 1 [1]) (by decide)).2.2.2 2).2.2

/-- C9: under the buffer-length invariant with positive dimensions, every
byte index reached by `get_cell` — directly for any index below
`8 * ceil(width*height/8)` (including the padding indices processed by
`tick`), through the wrapped neighbor lookups of `live_neighbor_count`, or
through `render`'s row/column lookups — stays inside the packed buffer. -/
theorem accesses_in_bounds (u : Universe) (hw : 0 < u.width) (hh : 0 < u.height)
    (hlen : u.cells.length = (u.width * u.height + 7) / 8) :
    (∀ index, index < 8 * u.cells.length → index / 8 < u.cells.length) ∧
      (∀ index dr dc, index < 8 * u.cells.length → dr ∈ [u.height - 1, 0, 1] →
        dc ∈ [u.width - 1, 0, 1] →
        u.get_index (((u.get_row_column index).1 + dr) % u.height)
            (((u.get_row_column index).2 + dc) % u.width) / 8 < u.cells.length) ∧
      (∀ row col, row < u.height → col < u.width →
        u.get_index row col / 8 < u.cells.length) := by
  have hkey : ∀ r c, r < u.height → c < u.width → u.get_index r c / 8 < u.cells.length := by
    intro r c hr hc
    have h1 : u.get_index r c < u.width * u.height := get_index_lt u r c hr hc
    have h2 : 0 < u.width * u.height := Nat.mul_pos hw hh
    rw [hlen]
    generalize hW : u.width * u.height = W at h1 h2
    omega
  refine ⟨?_, ?_, hkey⟩
  · intro index hidx
    omega
  · intro index dr dc hidx hdr hdc
    exact hkey _ _ (Nat.mod_lt _ hh) (Nat.mod_lt _ hw)

/-- Witness for C9: a direct byte access on the 1 by 1 grid. -/
theorem accesses_in_bounds_witness : 5 / 8 < (Universe.mk 1 1 [1]).cells.length :=
  (accesses_in_bounds (Universe.mk 1 1 [1]) (by decide) (by decide) (by decide)).1 5 (by decide)

/-- C10: two grids with the same dimensions and the same logical cells
(padding bits may differ) have identical `to_cells`, identical `render`,
and identical logical cells after any number of ticks. -/
theorem padding_independence (u1 u2 : Universe) (hw : u1.width = u2.width)
    (hh : u1.height = u2.height)
    (hc : ∀ i, i < u1.width * u1.height → u1.get_cell i = u2.get_cell i) :
    u1.to_cells = u2.to_cells ∧ u1.render = u2.render ∧
      ∀ k i, i < u1.width * u1.height →
        (Universe.tick^[k] u1).get_cell i = (Universe.tick^[k] u2).get_cell i :=
  ⟨to_cells_congr u1 u2 hw hh hc, render_congr u1 u2 hw hh hc,
   fun k => iterate_tick_congr u1 u2 hw hh hc k⟩

/-- Witness for C10: two 3 by 1 grids differing only in a padding bit
unpack to the same cells. -/
theorem padding_independence_witness :
    (Universe.mk 3 1 [5]).to_cells = (Universe.mk 3 1 [13]).to_cells :=
  (padding_independence (Universe.mk 3 1 [5]) (Universe.mk 3 1 [13]) rfl rfl (by decide)).1
